import Mathlib

/-!
Verification development for the DB Schenker shipment-tracker scraper.

The definitions below are a shallow embedding of the repository's
TypeScript source: the pure string/JSON manipulation functions are
translated directly, and the Playwright-driven steps are modelled by
records of `Except`-valued step results (a step that can throw in JS is a
field that can be `.error`).  Machine numbers produced by `parseFloat` on
digit/dot strings are modelled as rationals.
-/

/-! ### Character constants (written via code points) -/

def lbrace : Char := Char.ofNat 123

def rbrace : Char := Char.ofNat 125

def lbrack : Char := Char.ofNat 91

def rbrack : Char := Char.ofNat 93

def dquote : Char := Char.ofNat 34

def squote : Char := Char.ofNat 39

def bslash : Char := Char.ofNat 92

def nulChar : Char := Char.ofNat 0

/-! ### JavaScript string helpers -/

/-- Whitespace recognised by the model of JavaScript `String.prototype.trim`. -/
def jsWhitespace (c : Char) : Bool :=
  c == ' ' || c == '\t' || c == '\n' || c == '\r' ||
  c == Char.ofNat 11 || c == Char.ofNat 12 || c == Char.ofNat 160

/-- Model of JS `.trim()` on a character list. -/
def jsTrim (l : List Char) : List Char :=
  ((l.dropWhile jsWhitespace).reverse.dropWhile jsWhitespace).reverse

/-- Model of JS `.trim()` on a `String`. -/
def jsTrimStr (s : String) : String :=
  String.mk (jsTrim s.data)

/-- Model of JS `s.slice(a, b)` for non-negative in-range arguments. -/
def jsSlice (l : List Char) (a b : Nat) : List Char :=
  (l.drop a).take (b - a)

/-- Model of the JS idiom `x?.f() || d` on strings: `undefined`/`null`
and the empty string are falsy and replaced by the default. -/
def jsOr (o : Option String) (d : String) : String :=
  match o with
  | none => d
  | some s => if s = "" then d else s

/-- Model of the JS idiom `x?.f() || undefined` on strings. -/
def jsOrUndef (o : Option String) : Option String :=
  match o with
  | none => none
  | some s => if s = "" then none else some s

/-- Model of `x || 0` applied to the result of `parseFloat` (NaN is `none`). -/
def jsNumOr (o : Option ℚ) (d : ℚ) : ℚ :=
  match o with
  | none => d
  | some q => q

/-! ### Data model, from `src/types.ts` (the shape the scraper constructs) -/

structure TrackingEvent where
  event : String
  date : String
  location : String
  reason : Option String
deriving DecidableEq, Repr

structure Party where
  address : String
deriving DecidableEq, Repr

structure Package where
  weight : ℚ
  trackingEvents : List TrackingEvent
deriving DecidableEq, Repr

structure ShipmentData where
  reference : String
  sender : Party
  receiver : Party
  packages : List Package
  trackingHistory : List TrackingEvent
deriving DecidableEq, Repr

/-! ### History rows

A `RawRow` models one `tbody tr.ng-star-inserted` DOM row as seen by the
in-page `$$eval` callback: for each of the four index-scoped
`data-test` selectors it records the `textContent` of the matched element
(`none` when the element is missing or its `textContent` is `null`). -/

structure RawRow where
  eventText : Option String
  dateText : Option String
  locText : Option String
  reasonText : Option String
deriving DecidableEq, Repr

/-- The event object built for a kept row (`src/scrape.ts`, history `$$eval`):
`event` defaults to the literal `"Status Update"`, `date`/`location` to `""`,
`reason` to `undefined`. -/
def rawRowEvent (r : RawRow) : TrackingEvent :=
  { event := jsOr (r.eventText.map jsTrimStr) "Status Update"
    date := jsOr (r.dateText.map jsTrimStr) ""
    location := jsOr (r.locText.map jsTrimStr) ""
    reason := jsOrUndef (r.reasonText.map jsTrimStr) }

/-- Effective date text of a row: `dateEl?.textContent?.trim() || ''`. -/
def effDate (r : RawRow) : String :=
  jsOr (r.dateText.map jsTrimStr) ""

/-- Effective location text of a row: `locEl?.textContent?.trim() || ''`. -/
def effLoc (r : RawRow) : String :=
  jsOr (r.locText.map jsTrimStr) ""

/-- Per-row mapping of the history `$$eval` in `src/scrape.ts`
(`extractShipmentData`): `if (!dateText && !locText) return null` else the
event object. -/
def rowToEvent (r : RawRow) : Option TrackingEvent :=
  if effDate r == "" && effLoc r == "" then none else some (rawRowEvent r)

/-- The full history `$$eval` of `src/scrape.ts` `extractShipmentData`:
`rows.map(...).filter(Boolean)`. -/
def historyFromRows (rows : List RawRow) : List TrackingEvent :=
  (rows.map rowToEvent).filterMap id

/-! ### Weight parsing (`src/scrape.ts`, `weightStr.replace(/[^0-9.]/g, '')`
then `parseFloat(...) || 0`) -/

/-- Digit-string value accumulator. -/
def natOfDigits (ds : List Char) : ℕ :=
  ds.foldl (fun a c => 10 * a + (c.toNat - 48)) 0

/-- Model of JS `parseFloat` on a string consisting solely of digits and
decimal points (the only inputs it receives here, after stripping):
a leading run of digits, an optional single point, a run of fraction
digits; trailing garbage is ignored; no digit at all parses to NaN
(`none`). -/
def parseFloatDigits (l : List Char) : Option ℚ :=
  let intDs := l.takeWhile Char.isDigit
  let rest := l.dropWhile Char.isDigit
  match rest with
  | c :: rest2 =>
    if c = '.' then
      let fracDs := rest2.takeWhile Char.isDigit
      if intDs = [] ∧ fracDs = [] then none
      else some ((natOfDigits intDs : ℚ) + (natOfDigits fracDs : ℚ) / 10 ^ fracDs.length)
    else if intDs = [] then none else some (natOfDigits intDs : ℚ)
  | [] => if intDs = [] then none else some (natOfDigits intDs : ℚ)

/-- `weightStr.replace(/[^0-9.]/g, '')`: keep only digits and points. -/
def stripWeight (s : String) : List Char :=
  s.data.filter (fun c => c.isDigit || c == '.')

/-- `parseFloat(weightStr.replace(/[^0-9.]/g, '')) || 0`. -/
def extractWeight (s : String) : ℚ :=
  jsNumOr (parseFloatDigits (stripWeight s)) 0

/-! ### Data extractor, soft variant (`extractShipmentData`,
`extractTrackingHistory`, `createEmptyShipment` of `src/unnamed/part_006`)

An `ExtractPage` models the page state an extraction runs against:
`rows` is the outcome of the history `$$eval` (which may throw), and
`text` is the outcome of the per-selector `$eval` reads (which may throw,
and whose `textContent` may be `null`). -/

structure ExtractPage where
  rows : Except String (List RawRow)
  text : String → Except String (Option String)

/-- `extractTrackingHistory` (part_006): maps every row, with no
empty-row filter; a throwing `$$eval` bubbles to the caller. -/
def extractTrackingHistory (p : ExtractPage) : Except String (List TrackingEvent) :=
  p.rows.map (fun rs => rs.map rawRowEvent)

/-- `safeGetText`: a per-selector read whose failure yields `""`. -/
def safeGetText (p : ExtractPage) (sel : String) : String :=
  match p.text sel with
  | .error _ => ""
  | .ok t => jsOr (t.map jsTrimStr) ""

/-- `createEmptyShipment` (part_006): the canonical empty record. -/
def createEmptyShipment (reference : String) : ShipmentData :=
  { reference := reference
    sender := ⟨""⟩
    receiver := ⟨""⟩
    packages := [⟨0, []⟩]
    trackingHistory := [] }

/-- `extractShipmentData`, soft-policy variant (part_006): any throw from
the history evaluation is absorbed into `createEmptyShipment`; the three
scalar reads are individually isolated by `safeGetText`. -/
def extractShipmentData (p : ExtractPage) (reference : String) : ShipmentData :=
  match extractTrackingHistory p with
  | .error _ => createEmptyShipment reference
  | .ok history =>
    let shipper := safeGetText p "[data-test=\"shipper_place_value\"]"
    let consignee := safeGetText p "[data-test=\"consignee_place_value\"]"
    let weightStr := safeGetText p "[data-test=\"total_weight_value\"]"
    { reference := reference
      sender := ⟨shipper⟩
      receiver := ⟨consignee⟩
      packages := [⟨extractWeight weightStr, history⟩]
      trackingHistory := history }

/-! ### Search navigator (`performSearch` of `src/scrape.ts`)

A `SearchPage` models the outcome of each Playwright step of the fixed
navigate / dismiss-banner / fill / submit / expand sequence. -/

structure SearchPage where
  goto : Except String Unit
  bannerClick : Except String Unit
  fill : Except String Unit
  submitClick : Except String Unit
  seeMoreVisible : Except String Bool
  seeMoreClick : Except String Unit

/-- The inner `try { ... click ... } catch { console.warn(...) }` around the
privacy-banner dismissal: its outcome is swallowed either way. -/
def jsSwallow (e : Except String Unit) : Except String Unit :=
  match e with
  | .ok _ => .ok ()
  | .error _ => .ok ()

/-- `await seeMore.isVisible().catch(() => false)`. -/
def jsCatchBool (e : Except String Bool) : Bool :=
  match e with
  | .ok b => b
  | .error _ => false

/-- The message of the error re-raised by `performSearch`. -/
def searchFailMsg (reference : String) : String :=
  "Failed to perform search for reference " ++ reference

/-- `performSearch` (`src/scrape.ts` lines 36-66): goto, swallowed banner
click, fill, submit, optional see-more click (inside the outer `try`, not
individually caught), all wrapped by a catch that re-raises a search error
naming the reference. -/
def performSearch (p : SearchPage) (reference : String) : Except String Unit :=
  let body : Except String Unit :=
    p.goto.bind fun _ =>
    (jsSwallow p.bannerClick).bind fun _ =>
    p.fill.bind fun _ =>
    p.submitClick.bind fun _ =>
    (if jsCatchBool p.seeMoreVisible then p.seeMoreClick else Except.ok ())
  match body with
  | .ok u => .ok u
  | .error _ => .error (searchFailMsg reference)

/-! ### Headless-mode resolution (`resolveHeadless`, `initializeBrowser`
of `src/scrape.ts`) -/

/-- `resolveHeadless` (`src/scrape.ts` lines 188-196): CLI `--headed`,
then CLI `--headless`, then the `SCRAPER_HEADLESS` environment toggle,
then the headless default. -/
def resolveHeadless (cli : List String) (env : Option String) : Bool :=
  if cli.contains "--headed" then false
  else if cli.contains "--headless" then true
  else if env = some "false" ∨ env = some "0" then false
  else true

/-- The headless flag computed by `initializeBrowser` (`src/scrape.ts`
lines 15-18): `!(envVal === 'false' || envVal === '0')`, forced headed
by the override parameter. -/
def initializeBrowserHeadless (headedOverride : Bool) (env : Option String) : Bool :=
  let headless : Bool := !(env == some "false" || env == some "0")
  if headedOverride then false else headless

/-- The headless mode of the operative pipeline (`runScraper`,
`src/scrape.ts` lines 134-136): `const isHeaded =
process.argv.includes('--headed'); initializeBrowser(isHeaded)` — the
`--headless` flag is never consulted on this path. -/
def runScraperHeadless (cli : List String) (env : Option String) : Bool :=
  initializeBrowserHeadless (cli.contains "--headed") env

/-- The headless resolution of the `runScraper` draft in
`src/unnamed/part_007` (lines 30-36): the environment toggle is applied
first, then `--headed`, then `--headless` — so the later `--headless`
write wins when both flags are present. -/
def runScraperDraftHeadless (cli : List String) (env : Option String) : Bool :=
  let headless : Bool :=
    match env with
    | some v => !(v == "false" || v == "0")
    | none => true
  let headless : Bool := if cli.contains "--headed" then false else headless
  if cli.contains "--headless" then true else headless

/-- The claim's joint five-level precedence, written from the spec's
words for comparison: CLI `--headed` forces headed; else CLI `--headless`
forces headless; else the headed override parameter forces headed; else
the environment values `"false"`/`"0"` mean headed; else headless. -/
def specHeadlessPrecedence (cli : List String) (headedOverride : Bool)
    (env : Option String) : Bool :=
  if cli.contains "--headed" then false
  else if cli.contains "--headless" then true
  else if headedOverride then false
  else if env = some "false" ∨ env = some "0" then false
  else true

/-! ### JSON locator (`extractJson` of `src/index.ts`,
`extractJsonFromStdout` of `src/unnamed/part_001`) -/

/-- First index of a character in a list (JS `s.indexOf(ch)`,
`none` for `-1`). -/
def firstIdxChar : List Char → Char → Option Nat
  | [], _ => none
  | x :: xs, c => if x = c then some 0 else (firstIdxChar xs c).map (· + 1)

/-- `pat` occurs at the head of `s`. -/
def leadsWith : List Char → List Char → Bool
  | [], _ => true
  | _ :: _, [] => false
  | c :: cs, d :: ds => c == d && leadsWith cs ds

/-- First index of a substring in a list (JS `s.indexOf(pat)`,
`none` for `-1`). -/
def firstIdxList : List Char → List Char → Option Nat
  | [], pat => if pat = [] then some 0 else none
  | s :: rest, pat =>
    if leadsWith pat (s :: rest) then some 0
    else (firstIdxList rest pat).map (· + 1)

/-- The balanced-scan loop of the JSON locator, translated from the
`for` loop of `extractJson` (`src/index.ts` lines 104-124): `depth` is the
nesting counter, `inString`/`quote`/`escaped` the quoted-string sub-state,
`i` the absolute index of the current character.  Returns the absolute
index at which the depth returns to zero, or `none` when the input is
exhausted first. -/
def scanLoop (openC closeC : Char) :
    List Char → Int → Bool → Char → Bool → Nat → Option Nat
  | [], _, _, _, _, _ => none
  | ch :: rest, depth, inString, quote, escaped, i =>
    if inString then
      if escaped then scanLoop openC closeC rest depth true quote false (i + 1)
      else if ch = bslash then scanLoop openC closeC rest depth true quote true (i + 1)
      else if ch = quote then scanLoop openC closeC rest depth false quote escaped (i + 1)
      else scanLoop openC closeC rest depth true quote escaped (i + 1)
    else if ch = dquote ∨ ch = squote then
      scanLoop openC closeC rest depth true ch escaped (i + 1)
    else if ch = openC then scanLoop openC closeC rest (depth + 1) false quote escaped (i + 1)
    else if ch = closeC then
      if depth - 1 = 0 then some i
      else scanLoop openC closeC rest (depth - 1) false quote escaped (i + 1)
    else scanLoop openC closeC rest depth false quote escaped (i + 1)

/-- Determination of the scan start: the first `{` or `[` in the buffer,
the earlier of the two winning (`src/index.ts` lines 88-95). -/
def startDelim (s : List Char) : Option (Nat × Char) :=
  match firstIdxChar s lbrace, firstIdxChar s lbrack with
  | none, none => none
  | some ib, none => some (ib, lbrace)
  | none, some ik => some (ik, lbrack)
  | some ib, some ik =>
    let start := min ib ik
    some (start, if start = ib then lbrace else lbrack)

/-- `closeChar = openChar === '{' ? '}' : ']'`. -/
def closeOf (oc : Char) : Char :=
  if oc = lbrace then rbrace else rbrack

/-- `extractJson` (`src/index.ts` lines 87-127): balanced-scan JSON
recovery from mixed stdout; no sentinel handling in this variant. -/
def extractJson (s : List Char) : Option (List Char) :=
  match startDelim s with
  | none => none
  | some (start, oc) =>
    match scanLoop oc (closeOf oc) (s.drop start) 0 false nulChar false start with
    | some i => some (jsSlice s start (i + 1))
    | none => none

/-- The literal start sentinel `---JSON-START---`. -/
def startTagL : List Char := "---JSON-START---".data

/-- The literal end sentinel `---JSON-END---`. -/
def endTagL : List Char := "---JSON-END---".data

/-- `extractJsonFromStdout` (`src/unnamed/part_001` lines 9-43, logic
identical to the `extractJson` of `src/unnamed/part_002`): sentinel mode
first, then the balanced-scan fallback, which is character-for-character
the `extractJson` of `src/index.ts`. -/
def extractJsonFromStdout (out : List Char) : Option (List Char) :=
  match firstIdxList out startTagL, firstIdxList out endTagL with
  | some st, some en =>
    if st < en then some (jsTrim (jsSlice out (st + startTagL.length) en))
    else extractJson out
  | some _, none => extractJson out
  | none, _ => extractJson out

/-! ### Loosely-typed parsed values and the normalizer (`src/index.ts`) -/

/-- A decoded JSON value, as handed to the normalizer.  Property access on
a non-object (array, scalar, null) yields `undefined`, which is what the
`?.` chains in the source rely on. -/
inductive JVal where
  | jnull : JVal
  | jbool : Bool → JVal
  | jnum : ℚ → JVal
  | jstr : String → JVal
  | jarr : List JVal → JVal
  | jobj : List (String × JVal) → JVal

/-- Association-list lookup for object fields. -/
def jlookup : List (String × JVal) → String → Option JVal
  | [], _ => none
  | (k, v) :: rest, key => if k == key then some v else jlookup rest key

/-- Model of `v?.k`: `undefined` (`none`) on non-objects and absent keys. -/
def jget (v : JVal) (k : String) : Option JVal :=
  match v with
  | .jobj fields => jlookup fields k
  | _ => none

/-- `normalized.trackingHistory` (`src/index.ts` line 169):
`Array.isArray(parsed?.trackingHistory) ? parsed.trackingHistory
 : Array.isArray(parsed?.packages?.trackingEvents) ? parsed.packages.trackingEvents
 : []`. -/
def normalizedTrackingHistory (parsed : JVal) : List JVal :=
  match jget parsed "trackingHistory" with
  | some (.jarr xs) => xs
  | _ =>
    match jget parsed "packages" with
    | some pk =>
      match jget pk "trackingEvents" with
      | some (.jarr ys) => ys
      | _ => []
    | none => []

/-- The top-level `trackingHistory` field when it is an array. -/
def topHistArr (v : JVal) : Option (List JVal) :=
  match jget v "trackingHistory" with
  | some (.jarr xs) => some xs
  | _ => none

/-- The `trackingEvents` property of the `packages` value when it is an
array (defined only when `packages` is a bare object carrying one). -/
def pkgEvtsArr (v : JVal) : Option (List JVal) :=
  match jget v "packages" with
  | some pk =>
    match jget pk "trackingEvents" with
    | some (.jarr ys) => some ys
    | _ => none
  | none => none

/-- Reference semantics written from the spec sentence for comparison:
`trackingHistory` is the top-level field if present (an array); otherwise
the `trackingEvents` of the FIRST PACKAGE of the value; otherwise `[]`. -/
def specTrackingHistory (v : JVal) : List JVal :=
  match jget v "trackingHistory" with
  | some (.jarr xs) => xs
  | _ =>
    match jget v "packages" with
    | some (.jarr (p :: _)) =>
      match jget p "trackingEvents" with
      | some (.jarr ys) => ys
      | _ => []
    | _ => []

/-! ### The tool-level error fallback (`src/index.ts` lines 176-190) -/

structure NamedParty where
  name : String
  address : String
deriving DecidableEq, Repr

/-- The `structuredContent` returned by the `scrape` tool's `catch`
branch. -/
structure FallbackShipment where
  reference : String
  sender : NamedParty
  receiver : NamedParty
  packages : List Package
  trackingHistory : List TrackingEvent
  error : String
deriving DecidableEq, Repr

/-- The error-path `structuredContent` of the `scrape` tool
(`src/index.ts` lines 181-188): note `packages: []`. -/
def scrapeToolErrorFallback (reference : String) (err : String) : FallbackShipment :=
  { reference := reference
    sender := ⟨"", ""⟩
    receiver := ⟨"", ""⟩
    packages := []
    trackingHistory := []
    error := err }

/-! ### A grammar of scan-inert content

`StrBody q l` says `l` is a valid interior of a quoted string opened by
`q`: every unescaped character differs from `q`, escapes protect the
following character.  `BalancedBody oc cc l` says `l` is a sequence of
plain characters, complete quoted strings and complete nested
`oc`/`cc` blocks — exactly the shape of the interior of a serialized
JSON value with respect to the scanner's delimiter pair. -/

inductive StrBody (q : Char) : List Char → Prop
  | nil : StrBody q []
  | plain (c : Char) (rest : List Char) :
      c ≠ q → c ≠ bslash → StrBody q rest → StrBody q (c :: rest)
  | esc (c : Char) (rest : List Char) :
      StrBody q rest → StrBody q (bslash :: c :: rest)

inductive BalancedBody (oc cc : Char) : List Char → Prop
  | nil : BalancedBody oc cc []
  | plain (c : Char) (rest : List Char) :
      c ≠ oc → c ≠ cc → c ≠ dquote → c ≠ squote →
      BalancedBody oc cc rest → BalancedBody oc cc (c :: rest)
  | str (q : Char) (sb rest : List Char) :
      q = dquote ∨ q = squote → StrBody q sb → BalancedBody oc cc rest →
      BalancedBody oc cc (q :: (sb ++ q :: rest))
  | nest (inner rest : List Char) :
      BalancedBody oc cc inner → BalancedBody oc cc rest →
      BalancedBody oc cc (oc :: (inner ++ cc :: rest))

/-! ### Step lemmas for the scan loop -/

lemma scanLoop_nil (oc cc : Char) (d : Int) (b : Bool) (q : Char) (e : Bool) (i : Nat) :
    scanLoop oc cc [] d b q e i = none := rfl

lemma scanLoop_enterStr (oc cc c : Char) (l : List Char) (d : Int) (q : Char) (e : Bool)
    (i : Nat) (h : c = dquote ∨ c = squote) :
    scanLoop oc cc (c :: l) d false q e i = scanLoop oc cc l d true c e (i + 1) := by
  simp [scanLoop, h]

lemma scanLoop_open (oc cc c : Char) (l : List Char) (d : Int) (q : Char) (e : Bool)
    (i : Nat) (h1 : ¬(c = dquote ∨ c = squote)) (h2 : c = oc) :
    scanLoop oc cc (c :: l) d false q e i = scanLoop oc cc l (d + 1) false q e (i + 1) := by
  subst h2; simp [scanLoop, h1]

lemma scanLoop_close_ret (oc cc c : Char) (l : List Char) (d : Int) (q : Char) (e : Bool)
    (i : Nat) (h1 : ¬(c = dquote ∨ c = squote)) (h2 : c ≠ oc) (h3 : c = cc)
    (h4 : d - 1 = 0) :
    scanLoop oc cc (c :: l) d false q e i = some i := by
  subst h3; simp [scanLoop, h1, h2, h4]

lemma scanLoop_close_go (oc cc c : Char) (l : List Char) (d : Int) (q : Char) (e : Bool)
    (i : Nat) (h1 : ¬(c = dquote ∨ c = squote)) (h2 : c ≠ oc) (h3 : c = cc)
    (h4 : ¬(d - 1 = 0)) :
    scanLoop oc cc (c :: l) d false q e i = scanLoop oc cc l (d - 1) false q e (i + 1) := by
  subst h3; simp [scanLoop, h1, h2, h4]

lemma scanLoop_inert (oc cc c : Char) (l : List Char) (d : Int) (q : Char) (e : Bool)
    (i : Nat) (h1 : ¬(c = dquote ∨ c = squote)) (h2 : c ≠ oc) (h3 : c ≠ cc) :
    scanLoop oc cc (c :: l) d false q e i = scanLoop oc cc l d false q e (i + 1) := by
  simp [scanLoop, h1, h2, h3]

lemma scanLoop_str_esc (oc cc c : Char) (l : List Char) (d : Int) (q : Char) (i : Nat) :
    scanLoop oc cc (c :: l) d true q true i = scanLoop oc cc l d true q false (i + 1) := by
  simp [scanLoop]

lemma scanLoop_str_bslash (oc cc : Char) (l : List Char) (d : Int) (q : Char) (i : Nat) :
    scanLoop oc cc (bslash :: l) d true q false i = scanLoop oc cc l d true q true (i + 1) := by
  simp [scanLoop]

lemma scanLoop_str_close (oc cc : Char) (l : List Char) (d : Int) (q : Char) (i : Nat)
    (hq : q ≠ bslash) :
    scanLoop oc cc (q :: l) d true q false i = scanLoop oc cc l d false q false (i + 1) := by
  simp [scanLoop, hq]

lemma scanLoop_str_plain (oc cc c : Char) (l : List Char) (d : Int) (q : Char) (i : Nat)
    (h1 : c ≠ bslash) (h2 : c ≠ q) :
    scanLoop oc cc (c :: l) d true q false i = scanLoop oc cc l d true q false (i + 1) := by
  simp [scanLoop, h1, h2]

/-- Outside a string, the remembered quote character is irrelevant. -/
lemma scanLoop_quote_irrel (oc cc : Char) :
    ∀ (l : List Char) (d : Int) (q q' : Char) (e : Bool) (i : Nat),
      scanLoop oc cc l d false q e i = scanLoop oc cc l d false q' e i := by
  intro l
  induction l with
  | nil => intro d q q' e i; rfl
  | cons c rest ih =>
    intro d q q' e i
    by_cases hq : c = dquote ∨ c = squote
    · simp only [scanLoop, if_neg (by simp : ¬False), hq]
      simp [hq]
    · by_cases ho : c = oc
      · rw [scanLoop_open oc cc c rest d q e i hq ho,
          scanLoop_open oc cc c rest d q' e i hq ho]
        exact ih (d + 1) q q' e (i + 1)
      · by_cases hc : c = cc
        · by_cases hd : d - 1 = 0
          · rw [scanLoop_close_ret oc cc c rest d q e i hq ho hc hd,
              scanLoop_close_ret oc cc c rest d q' e i hq ho hc hd]
          · rw [scanLoop_close_go oc cc c rest d q e i hq ho hc hd,
              scanLoop_close_go oc cc c rest d q' e i hq ho hc hd]
            exact ih (d - 1) q q' e (i + 1)
        · rw [scanLoop_inert oc cc c rest d q e i hq ho hc,
            scanLoop_inert oc cc c rest d q' e i hq ho hc]
          exact ih d q q' e (i + 1)

/-- Consuming a valid string interior keeps the scan in the string state
and advances the index by its length. -/
lemma scanLoop_skip_strBody (oc cc q : Char) :
    ∀ (sb : List Char), StrBody q sb → ∀ (tail : List Char) (d : Int) (i : Nat),
      scanLoop oc cc (sb ++ tail) d true q false i =
        scanLoop oc cc tail d true q false (i + sb.length) := by
  intro sb hsb
  induction hsb with
  | nil => intro tail d i; simp
  | plain c rest hcq hcb hrest ih =>
    intro tail d i
    rw [List.cons_append, scanLoop_str_plain oc cc c (rest ++ tail) d q i hcb hcq]
    rw [ih tail d (i + 1)]
    congr 1
    simp [Nat.add_assoc, Nat.add_comm 1 rest.length]
  | esc c rest hrest ih =>
    intro tail d i
    rw [List.cons_append, scanLoop_str_bslash, List.cons_append, scanLoop_str_esc]
    rw [ih tail d (i + 1 + 1)]
    congr 1
    simp [List.length_cons]
    omega

/-- A string interior with no closing quote exhausts the scan. -/
lemma scanLoop_unterminated_str (oc cc q : Char) (sb : List Char) (hsb : StrBody q sb)
    (d : Int) (i : Nat) :
    scanLoop oc cc sb d true q false i = none := by
  have h := scanLoop_skip_strBody oc cc q sb hsb [] d i
  simpa using h

/-- Consuming a balanced body at depth at least one neither returns nor
changes the depth: the scan resumes after it. -/
lemma scanLoop_skip_body (oc cc : Char)
    (ho1 : oc ≠ dquote) (ho2 : oc ≠ squote)
    (hc1 : cc ≠ dquote) (hc2 : cc ≠ squote) (hne : oc ≠ cc) :
    ∀ (body : List Char), BalancedBody oc cc body →
    ∀ (rest : List Char) (d : Int), 1 ≤ d → ∀ (q : Char) (i : Nat),
      scanLoop oc cc (body ++ rest) d false q false i =
        scanLoop oc cc rest d false q false (i + body.length) := by
  intro body hbody
  induction hbody with
  | nil => intro rest d _ q i; simp
  | plain c rest' h1 h2 h3 h4 hrest ih =>
    intro rest d hd q i
    rw [List.cons_append,
      scanLoop_inert oc cc c (rest' ++ rest) d q false i (by tauto) h1 h2]
    rw [ih rest d hd q (i + 1)]
    congr 1
    simp [List.length_cons]
    omega
  | str q' sb rest' hq' hsb hrest ih =>
    intro rest d hd q i
    have hqb : q' ≠ bslash := by
      rcases hq' with h | h <;> subst h <;> decide
    rw [List.cons_append,
      scanLoop_enterStr oc cc q' ((sb ++ q' :: rest') ++ rest) d q false i hq']
    have hassoc : (sb ++ q' :: rest') ++ rest = sb ++ (q' :: (rest' ++ rest)) := by
      simp
    rw [hassoc,
      scanLoop_skip_strBody oc cc q' sb hsb (q' :: (rest' ++ rest)) d (i + 1)]
    rw [scanLoop_str_close oc cc (rest' ++ rest) d q' (i + 1 + sb.length) hqb]
    rw [ih rest d hd q' (i + 1 + sb.length + 1)]
    rw [scanLoop_quote_irrel oc cc rest d q' q false (i + 1 + sb.length + 1 + rest'.length)]
    congr 1
    simp [List.length_cons, List.length_append]
    omega
  | nest inner rest' hinner hrest ihinner ihrest =>
    intro rest d hd q i
    have hocq : ¬(oc = dquote ∨ oc = squote) := by tauto
    rw [List.cons_append,
      scanLoop_open oc cc oc ((inner ++ cc :: rest') ++ rest) d q false i hocq rfl]
    have hassoc : (inner ++ cc :: rest') ++ rest = inner ++ (cc :: (rest' ++ rest)) := by
      simp
    rw [hassoc, ihinner (cc :: (rest' ++ rest)) (d + 1) (by omega) q (i + 1)]
    have hccq : ¬(cc = dquote ∨ cc = squote) := by tauto
    rw [scanLoop_close_go oc cc cc (rest' ++ rest) (d + 1) q false
      (i + 1 + inner.length) hccq (Ne.symm hne) rfl (by omega)]
    have hd1 : d + 1 - 1 = d := by omega
    rw [hd1, ihrest rest d hd q (i + 1 + inner.length + 1)]
    congr 1
    simp [List.length_cons, List.length_append]
    omega

/-! ### First-index lemmas -/

lemma firstIdxChar_cons_self (t : Char) (l : List Char) :
    firstIdxChar (t :: l) t = some 0 := by
  simp [firstIdxChar]

lemma firstIdxChar_cons_ne (a t : Char) (l : List Char) (h : a ≠ t) :
    firstIdxChar (a :: l) t = (firstIdxChar l t).map (· + 1) := by
  simp [firstIdxChar, h]

lemma firstIdxChar_append_clean (pre l : List Char) (t : Char)
    (h : ∀ c ∈ pre, c ≠ t) :
    firstIdxChar (pre ++ l) t = (firstIdxChar l t).map (· + pre.length) := by
  induction pre with
  | nil => rcases h0 : firstIdxChar l t with _ | k <;> simp [h0]
  | cons a p ih =>
    have ha : a ≠ t := h a (List.mem_cons_self a p)
    rw [List.cons_append, firstIdxChar_cons_ne a t (p ++ l) ha,
      ih (fun c hc => h c (List.mem_cons_of_mem a hc))]
    cases firstIdxChar l t with
    | none => simp
    | some k => simp [List.length_cons]; omega

/-- When the noise before the first delimiter contains no brace and no
bracket, the scan starts exactly at that delimiter. -/
lemma startDelim_prefix (pre rest : List Char) (oc : Char)
    (hoc : oc = lbrace ∨ oc = lbrack)
    (hpre : ∀ c ∈ pre, c ≠ lbrace ∧ c ≠ lbrack) :
    startDelim (pre ++ oc :: rest) = some (pre.length, oc) := by
  rcases hoc with hoc | hoc
  · subst hoc
    have h1 : firstIdxChar (pre ++ lbrace :: rest) lbrace = some pre.length := by
      rw [firstIdxChar_append_clean pre (lbrace :: rest) lbrace
        (fun c hc => (hpre c hc).1), firstIdxChar_cons_self]
      simp
    have h2 : firstIdxChar (pre ++ lbrace :: rest) lbrack =
        ((firstIdxChar rest lbrack).map (· + 1)).map (· + pre.length) := by
      rw [firstIdxChar_append_clean pre (lbrace :: rest) lbrack
        (fun c hc => (hpre c hc).2),
        firstIdxChar_cons_ne lbrace lbrack rest (by decide)]
    unfold startDelim
    rw [h1, h2]
    cases firstIdxChar rest lbrack with
    | none => simp
    | some k =>
      simp only [Option.map_some]
      have hmin : min pre.length (k + 1 + pre.length) = pre.length := by omega
      simp [hmin]
  · subst hoc
    have h1 : firstIdxChar (pre ++ lbrack :: rest) lbrack = some pre.length := by
      rw [firstIdxChar_append_clean pre (lbrack :: rest) lbrack
        (fun c hc => (hpre c hc).2), firstIdxChar_cons_self]
      simp
    have h2 : firstIdxChar (pre ++ lbrack :: rest) lbrace =
        ((firstIdxChar rest lbrace).map (· + 1)).map (· + pre.length) := by
      rw [firstIdxChar_append_clean pre (lbrack :: rest) lbrace
        (fun c hc => (hpre c hc).1),
        firstIdxChar_cons_ne lbrack lbrace rest (by decide)]
    unfold startDelim
    rw [h1, h2]
    cases firstIdxChar rest lbrace with
    | none => simp
    | some k =>
      simp only [Option.map_some]
      have hmin : min (k + 1 + pre.length) pre.length = pre.length := by omega
      have hne : pre.length ≠ k + 1 + pre.length := by omega
      simp [hmin, hne]

/-- Taking one past the length of a left factor. -/
lemma take_len_add {α : Type} (l m : List α) (n : Nat) :
    (l ++ m).take (l.length + n) = l ++ m.take n := by
  induction l with
  | nil => simp
  | cons a t ih =>
    have : (a :: t).length + n = (t.length + n) + 1 := by simp; omega
    rw [this, List.cons_append, List.take_succ_cons, ih]
    simp

/-! ### Claim theorems -/

/-- Claim C1: in the soft extraction-policy variant, a failure during
extraction (the history evaluation throwing) never propagates: for every
page state and reference `r` the result is the canonical empty record for
`r`. -/
theorem extractShipmentData_soft_failure_empty (p : ExtractPage) (r e : String)
    (h : p.rows = .error e) :
    extractShipmentData p r =
      { reference := r
        sender := ⟨""⟩
        receiver := ⟨""⟩
        packages := [⟨0, []⟩]
        trackingHistory := [] } := by
  unfold extractShipmentData extractTrackingHistory
  rw [h]
  rfl

/-- A concrete throwing page, used to instantiate the soft-failure claim. -/
def failingPage : ExtractPage :=
  ⟨Except.error "Evaluation failed", fun _ => Except.ok none⟩

/-- Witness for claim C1 at a concrete failing page. -/
theorem extractShipmentData_soft_failure_empty_witness :
    extractShipmentData failingPage "TEST_REF" =
      { reference := "TEST_REF"
        sender := ⟨""⟩
        receiver := ⟨""⟩
        packages := [⟨0, []⟩]
        trackingHistory := [] } :=
  extractShipmentData_soft_failure_empty failingPage "TEST_REF" "Evaluation failed" rfl

/-- Claim C3 counterexample: the tool-level error fallback of the `scrape`
tool returns an EMPTY `packages` sequence, not a one-element one. -/
theorem scrapeToolErrorFallback_packages_empty :
    (scrapeToolErrorFallback "1806203236" "Scrape failed").packages = [] := rfl

/-- Claim C3, amended: every record produced by the extraction operation
(successful or soft-recovered) has exactly one package — one empty package
is synthesized when no data was found — while the tool-level error
fallback instead returns an empty `packages` sequence. -/
theorem packages_nonempty_at_extraction :
    (∀ (p : ExtractPage) (r : String), (extractShipmentData p r).packages.length = 1) ∧
    (∀ (r e : String), (scrapeToolErrorFallback r e).packages = []) := by
  constructor
  · intro p r
    cases hp : p.rows with
    | error e =>
      simp [extractShipmentData, extractTrackingHistory, hp, Except.map, createEmptyShipment]
    | ok rs =>
      simp [extractShipmentData, extractTrackingHistory, hp, Except.map]
  · intro r e
    rfl

/-- Claim C4: the history extraction of `extractShipmentData`
(`src/scrape.ts`) drops exactly the rows whose effective date and location
are both empty, and emits the row's event object for every other row. -/
theorem historyFromRows_row_drop (rows : List RawRow) :
    historyFromRows rows =
      (rows.filter (fun r => !(effDate r == "" && effLoc r == ""))).map rawRowEvent := by
  induction rows with
  | nil => rfl
  | cons r rest ih =>
    by_cases hc : (effDate r == "" && effLoc r == "") = true
    · simp [historyFromRows, rowToEvent, hc, List.filter] at ih ⊢
      exact ih
    · simp [historyFromRows, rowToEvent, hc, List.filter] at ih ⊢
      exact ih

/-- Claim C7 counterexample: the claimed joint precedence fails on the
program.  With `--headless` on the command line and the environment
toggle set to `"false"`, the precedence requires headless mode, but the
operative pipeline — which derives the `initializeBrowser` override from
`--headed` alone and never consults `--headless` — launches headed; and
the cited part_007 draft applies `--headless` after `--headed`, so with
both flags present it resolves headless where the claimed top level
requires headed. -/
theorem headless_precedence_cex :
    specHeadlessPrecedence ["--headless"] false (some "false") = true ∧
    runScraperHeadless ["--headless"] (some "false") = false ∧
    specHeadlessPrecedence ["--headed", "--headless"] false none = false ∧
    runScraperDraftHeadless ["--headed", "--headless"] none = true := by
  refine ⟨by decide, by decide, by decide, by decide⟩

/-- Claim C7, amended: the standalone `resolveHeadless` helper implements
CLI `--headed` over CLI `--headless` over the environment toggle
(`"false"`/`"0"` means headed) over the headless default, and the
`initializeBrowser` override parameter forces headed ahead of the
environment toggle; but the operative pipeline (`runScraper`) derives the
override from `--headed` alone and never consults `--headless`, so on
that path the precedence is `--headed` over the environment toggle over
the default. -/
theorem headless_resolution_precedence (cli : List String) (env : Option String) (ov : Bool) :
    (cli.contains "--headed" = true → resolveHeadless cli env = false) ∧
    (cli.contains "--headed" = false → cli.contains "--headless" = true →
      resolveHeadless cli env = true) ∧
    (cli.contains "--headed" = false → cli.contains "--headless" = false →
      (env = some "false" ∨ env = some "0") → resolveHeadless cli env = false) ∧
    (cli.contains "--headed" = false → cli.contains "--headless" = false →
      ¬(env = some "false" ∨ env = some "0") → resolveHeadless cli env = true) ∧
    (ov = true → initializeBrowserHeadless ov env = false) ∧
    (ov = false → (env = some "false" ∨ env = some "0") →
      initializeBrowserHeadless ov env = false) ∧
    (ov = false → ¬(env = some "false" ∨ env = some "0") →
      initializeBrowserHeadless ov env = true) ∧
    (runScraperHeadless cli env = initializeBrowserHeadless (cli.contains "--headed") env) ∧
    (cli.contains "--headed" = true → runScraperHeadless cli env = false) ∧
    (cli.contains "--headed" = false → (env = some "false" ∨ env = some "0") →
      runScraperHeadless cli env = false) ∧
    (cli.contains "--headed" = false → ¬(env = some "false" ∨ env = some "0") →
      runScraperHeadless cli env = true) := by
  refine ⟨?_, ?_, ?_, ?_, ?_, ?_, ?_, rfl, ?_, ?_, ?_⟩
  · intro h1
    unfold resolveHeadless
    rw [h1]
    simp
  · intro h1 h2
    unfold resolveHeadless
    rw [h1, h2]
    simp
  · intro h1 h2 h3
    unfold resolveHeadless
    rw [h1, h2]
    simp [h3]
  · intro h1 h2 h3
    unfold resolveHeadless
    rw [h1, h2]
    simp [h3]
  · intro h1
    simp [initializeBrowserHeadless, h1]
  · intro h1 h2
    subst h1
    rcases h2 with rfl | rfl <;> simp [initializeBrowserHeadless]
  · intro h1 h2
    subst h1
    push_neg at h2
    simp [initializeBrowserHeadless, beq_iff_eq, h2.1, h2.2]
  · intro h1
    unfold runScraperHeadless initializeBrowserHeadless
    rw [h1]
    simp
  · intro h1 h2
    unfold runScraperHeadless initializeBrowserHeadless
    rw [h1]
    rcases h2 with rfl | rfl <;> simp
  · intro h1 h2
    unfold runScraperHeadless initializeBrowserHeadless
    rw [h1]
    push_neg at h2
    simp [beq_iff_eq, h2.1, h2.2]

/-- Witness for the amended claim C7 at concrete flag, override and
environment combinations on all three resolution paths. -/
theorem headless_resolution_precedence_witness :
    resolveHeadless ["--headed", "--headless"] (some "1") = false ∧
    resolveHeadless ["--headless"] (some "false") = true ∧
    resolveHeadless [] (some "false") = false ∧
    resolveHeadless [] (some "0") = false ∧
    resolveHeadless [] (some "1") = true ∧
    resolveHeadless [] none = true ∧
    initializeBrowserHeadless true (some "1") = false ∧
    initializeBrowserHeadless false (some "0") = false ∧
    initializeBrowserHeadless false none = true ∧
    runScraperHeadless ["--headed"] (some "1") = false ∧
    runScraperHeadless ["--headless"] (some "false") = false ∧
    runScraperHeadless ["--headless"] none = true :=
  ⟨(headless_resolution_precedence ["--headed", "--headless"] (some "1") true).1 (by decide),
   (headless_resolution_precedence ["--headless"] (some "false") true).2.1 (by decide) (by decide),
   (headless_resolution_precedence [] (some "false") true).2.2.1 (by decide) (by decide) (Or.inl rfl),
   (headless_resolution_precedence [] (some "0") true).2.2.1 (by decide) (by decide) (Or.inr rfl),
   (headless_resolution_precedence [] (some "1") true).2.2.2.1 (by decide) (by decide) (by simp),
   (headless_resolution_precedence [] none true).2.2.2.1 (by decide) (by decide) (by simp),
   (headless_resolution_precedence [] none true).2.2.2.2.1 rfl,
   (headless_resolution_precedence [] (some "0") false).2.2.2.2.2.1 rfl (Or.inr rfl),
   (headless_resolution_precedence [] none false).2.2.2.2.2.2.1 rfl (by simp),
   (headless_resolution_precedence ["--headed"] (some "1") true).2.2.2.2.2.2.2.2.1 (by decide),
   (headless_resolution_precedence ["--headless"] (some "false") true).2.2.2.2.2.2.2.2.2.1
     (by decide) (Or.inl rfl),
   (headless_resolution_precedence ["--headless"] none true).2.2.2.2.2.2.2.2.2.2
     (by decide) (by simp)⟩

/-- The value `parseFloat` yields on a digit/point string is never
negative. -/
lemma parseFloatDigits_nonneg (l : List Char) (q : ℚ)
    (h : parseFloatDigits l = some q) : 0 ≤ q := by
  simp only [parseFloatDigits] at h
  split at h <;> split_ifs at h <;>
    (injection h with h3; subst h3; positivity)

/-- Claim C8: the package weight is the result of stripping every
non-digit, non-point character and parsing the remainder; an empty or
unparsable remainder yields `0`; the weight is always non-negative (and
total — never absent). -/
theorem extractWeight_spec (s : String) :
    extractWeight s = jsNumOr (parseFloatDigits (stripWeight s)) 0 ∧
    (parseFloatDigits (stripWeight s) = none → extractWeight s = 0) ∧
    0 ≤ extractWeight s := by
  refine ⟨rfl, ?_, ?_⟩
  · intro h
    unfold extractWeight
    rw [h]
    rfl
  · unfold extractWeight
    cases hp : parseFloatDigits (stripWeight s) with
    | none => simp [jsNumOr]
    | some q => simpa [jsNumOr] using parseFloatDigits_nonneg _ q hp

/-- Witness for claim C8: fully non-numeric text yields `0`, and a noisy
weight string yields a non-negative value. -/
theorem extractWeight_spec_witness :
    extractWeight "no digits here" = 0 ∧ 0 ≤ extractWeight "1 234,5 kg" :=
  ⟨(extractWeight_spec "no digits here").2.1 (by decide),
   (extractWeight_spec "1 234,5 kg").2.2⟩

/-- Claim C2: when both sentinels occur, the start marker wholly before
the end marker, the locator returns exactly the trimmed substring strictly
between them — the balanced-scan fallback (and hence any brace outside the
sentinels) is never consulted. -/
theorem extractJsonFromStdout_sentinel_mode (out : List Char) (st en : Nat)
    (h1 : firstIdxList out startTagL = some st)
    (h2 : firstIdxList out endTagL = some en)
    (h3 : st + startTagL.length ≤ en) :
    extractJsonFromStdout out =
      some (jsTrim (jsSlice out (st + startTagL.length) en)) := by
  have hlen : 0 < startTagL.length := by decide
  have hlt : st < en := by omega
  unfold extractJsonFromStdout
  rw [h1, h2]
  simp [hlt]

/-- A concrete buffer with a brace before the sentinels and the payload
between them. -/
def sentinelBuf : List Char :=
  "x\x7b---JSON-START---\x7b\"a\":1\x7d---JSON-END---".data

/-- Witness for claim C2: the sentinel-enclosed payload is returned even
though an unrelated `\x7b` precedes the start marker. -/
theorem extractJsonFromStdout_sentinel_mode_witness :
    extractJsonFromStdout sentinelBuf =
      some (jsTrim (jsSlice sentinelBuf (2 + startTagL.length) 25)) :=
  extractJsonFromStdout_sentinel_mode sentinelBuf 2 25 (by decide) (by decide) (by decide)

/-- When the top-level `trackingHistory` is not recorded as an array, it
is absent or a non-array value. -/
lemma topHistArr_none (v : JVal) (h : topHistArr v = none) :
    jget v "trackingHistory" = none ∨
    ∃ w, jget v "trackingHistory" = some w ∧ ∀ xs, w ≠ JVal.jarr xs := by
  unfold topHistArr at h
  rcases h1 : jget v "trackingHistory" with _ | w
  · exact Or.inl rfl
  · right
    refine ⟨w, rfl, ?_⟩
    intro xs hw
    subst hw
    rw [h1] at h
    simp at h

/-- When the `packages` value carries no array `trackingEvents` property,
one of the access steps failed. -/
lemma pkgEvtsArr_none (v : JVal) (h : pkgEvtsArr v = none) :
    jget v "packages" = none ∨
    ∃ p, jget v "packages" = some p ∧
      (jget p "trackingEvents" = none ∨
       ∃ w, jget p "trackingEvents" = some w ∧ ∀ ys, w ≠ JVal.jarr ys) := by
  unfold pkgEvtsArr at h
  rcases h1 : jget v "packages" with _ | p
  · exact Or.inl rfl
  · right
    refine ⟨p, rfl, ?_⟩
    rw [h1] at h
    have h5 : (match jget p "trackingEvents" with
               | some (JVal.jarr ys) => some ys
               | _ => none) = (none : Option (List JVal)) := h
    rcases h2 : jget p "trackingEvents" with _ | w
    · exact Or.inl rfl
    · right
      refine ⟨w, rfl, ?_⟩
      intro ys hw
      subst hw
      rw [h2] at h5
      simp at h5

/-- A parsed value whose `packages` is an ARRAY whose first package has
`trackingEvents`, with no top-level `trackingHistory`. -/
def arrayPkgParsed : JVal :=
  .jobj [("packages", .jarr [.jobj [("trackingEvents", .jarr [.jstr "E1"])]])]

/-- Claim C6 counterexample: with `packages` an array, the fallback reads
`parsed.packages.trackingEvents` — `undefined` on an array — so the
normalizer yields `[]` although the first package's `trackingEvents` is
`[jstr "E1"]`, contradicting the claimed first-package fallback. -/
theorem normalizedTrackingHistory_first_package_cex :
    jget arrayPkgParsed "trackingHistory" = none ∧
    specTrackingHistory arrayPkgParsed = [JVal.jstr "E1"] ∧
    normalizedTrackingHistory arrayPkgParsed = [] ∧
    ([] : List JVal) ≠ [JVal.jstr "E1"] :=
  ⟨rfl, rfl, rfl, by simp⟩

/-- Claim C6, amended: `trackingHistory` equals the top-level field when
that is an array; otherwise, when the `packages` VALUE ITSELF carries an
array `trackingEvents` property (i.e. `packages` is a bare package object,
not an array of packages), it equals that; otherwise it is empty. -/
theorem normalizedTrackingHistory_cases (v : JVal) :
    (∀ xs, jget v "trackingHistory" = some (JVal.jarr xs) →
      normalizedTrackingHistory v = xs) ∧
    (topHistArr v = none → ∀ p ys, jget v "packages" = some p →
      jget p "trackingEvents" = some (JVal.jarr ys) →
      normalizedTrackingHistory v = ys) ∧
    (topHistArr v = none → pkgEvtsArr v = none →
      normalizedTrackingHistory v = []) := by
  refine ⟨?_, ?_, ?_⟩
  · intro xs h
    simp [normalizedTrackingHistory, h]
  · intro ht p ys hp hte
    rcases topHistArr_none v ht with h1 | ⟨w, h1, hwne⟩
    · simp [normalizedTrackingHistory, h1, hp, hte]
    · cases w <;>
        first
          | exact absurd rfl (hwne _)
          | simp [normalizedTrackingHistory, h1, hp, hte]
  · intro ht hp
    rcases pkgEvtsArr_none v hp with h2 | ⟨p, h2, h3⟩
    · rcases topHistArr_none v ht with h1 | ⟨w, h1, hwne⟩
      · simp [normalizedTrackingHistory, h1, h2]
      · cases w <;>
          first
            | exact absurd rfl (hwne _)
            | simp [normalizedTrackingHistory, h1, h2]
    · rcases h3 with h3 | ⟨w2, h3, h4⟩
      · rcases topHistArr_none v ht with h1 | ⟨w, h1, hwne⟩
        · simp [normalizedTrackingHistory, h1, h2, h3]
        · cases w <;>
            first
              | exact absurd rfl (hwne _)
              | simp [normalizedTrackingHistory, h1, h2, h3]
      · rcases topHistArr_none v ht with h1 | ⟨w, h1, hwne⟩
        · cases w2 <;>
            first
              | exact absurd rfl (h4 _)
              | simp [normalizedTrackingHistory, h1, h2, h3]
        · cases w <;>
            first
              | exact absurd rfl (hwne _)
              | (cases w2 <;>
                  first
                    | exact absurd rfl (h4 _)
                    | simp [normalizedTrackingHistory, h1, h2, h3])

/-- A parsed value with a top-level `trackingHistory` array. -/
def topHistParsed : JVal := .jobj [("trackingHistory", .jarr [.jstr "A"])]

/-- A parsed value whose `packages` is a bare package object. -/
def barePkgParsed : JVal :=
  .jobj [("packages", .jobj [("trackingEvents", .jarr [.jstr "B"])])]

/-- A parsed value with neither source of history. -/
def emptyParsed : JVal := .jobj []

/-- Witness for the amended claim C6 at the three branch shapes. -/
theorem normalizedTrackingHistory_cases_witness :
    normalizedTrackingHistory topHistParsed = [JVal.jstr "A"] ∧
    normalizedTrackingHistory barePkgParsed = [JVal.jstr "B"] ∧
    normalizedTrackingHistory emptyParsed = [] :=
  ⟨(normalizedTrackingHistory_cases topHistParsed).1 [JVal.jstr "A"] rfl,
   (normalizedTrackingHistory_cases barePkgParsed).2.1 rfl
     (JVal.jobj [("trackingEvents", JVal.jarr [JVal.jstr "B"])]) [JVal.jstr "B"] rfl rfl,
   (normalizedTrackingHistory_cases emptyParsed).2.2 rfl rfl⟩

/-- The banner try/catch always succeeds. -/
lemma jsSwallow_ok (e : Except String Unit) : jsSwallow e = .ok () := by
  cases e <;> rfl

/-- A page on which everything succeeds except the visible see-more
control's click. -/
def seeMoreFailPage : SearchPage :=
  { goto := .ok ()
    bannerClick := .ok ()
    fill := .ok ()
    submitClick := .ok ()
    seeMoreVisible := .ok true
    seeMoreClick := .error "Click failed" }

/-- Claim C9 counterexample: a failing click on a visible see-more control
escapes that step, is caught by the outer boundary, and aborts the whole
search with the search error — the search does not continue or complete
normally. -/
theorem performSearch_seeMore_propagates_cex :
    performSearch seeMoreFailPage "TEST9" = .error (searchFailMsg "TEST9") ∧
    performSearch seeMoreFailPage "TEST9" ≠ .ok () := by
  refine ⟨rfl, ?_⟩
  intro hcon
  rw [show performSearch seeMoreFailPage "TEST9" = .error (searchFailMsg "TEST9") from rfl]
    at hcon
  exact Except.noConfusion hcon

/-- Claim C9, amended: navigation, fill and submit failures are re-raised
as the search error naming the reference; the consent-banner dismissal
outcome and a failing see-more visibility check never propagate (the
conjuncts place no constraint on `bannerClick`); but when the see-more
control is reported visible and its click fails, that failure too is
re-raised as the search error — the search does not complete normally. -/
theorem performSearch_error_boundaries (p : SearchPage) (r : String) :
    (∀ e, p.goto = .error e → performSearch p r = .error (searchFailMsg r)) ∧
    (p.goto = .ok () → ∀ e, p.fill = .error e →
      performSearch p r = .error (searchFailMsg r)) ∧
    (p.goto = .ok () → p.fill = .ok () → ∀ e, p.submitClick = .error e →
      performSearch p r = .error (searchFailMsg r)) ∧
    (p.goto = .ok () → p.fill = .ok () → p.submitClick = .ok () →
      jsCatchBool p.seeMoreVisible = false → performSearch p r = .ok ()) ∧
    (p.goto = .ok () → p.fill = .ok () → p.submitClick = .ok () →
      jsCatchBool p.seeMoreVisible = true → p.seeMoreClick = .ok () →
      performSearch p r = .ok ()) ∧
    (p.goto = .ok () → p.fill = .ok () → p.submitClick = .ok () →
      jsCatchBool p.seeMoreVisible = true → ∀ e, p.seeMoreClick = .error e →
      performSearch p r = .error (searchFailMsg r)) := by
  refine ⟨?_, ?_, ?_, ?_, ?_, ?_⟩
  · intro e h
    simp [performSearch, h, Except.bind]
  · intro h1 e h
    simp [performSearch, h1, h, jsSwallow_ok, Except.bind]
  · intro h1 h2 e h
    simp [performSearch, h1, h2, h, jsSwallow_ok, Except.bind]
  · intro h1 h2 h3 h4
    simp [performSearch, h1, h2, h3, h4, jsSwallow_ok, Except.bind]
  · intro h1 h2 h3 h4 h5
    simp [performSearch, h1, h2, h3, h4, h5, jsSwallow_ok, Except.bind]
  · intro h1 h2 h3 h4 e h
    simp [performSearch, h1, h2, h3, h4, h, jsSwallow_ok, Except.bind]

/-- A page whose required navigation step fails. -/
def gotoFailPage : SearchPage :=
  { goto := .error "net::ERR_TIMED_OUT"
    bannerClick := .ok ()
    fill := .ok ()
    submitClick := .ok ()
    seeMoreVisible := .ok false
    seeMoreClick := .ok () }

/-- A page where only the best-effort steps fail. -/
def advisoryFailPage : SearchPage :=
  { goto := .ok ()
    bannerClick := .error "banner missing"
    fill := .ok ()
    submitClick := .ok ()
    seeMoreVisible := .error "visibility check failed"
    seeMoreClick := .ok () }

/-- Witness for the amended claim C9: a navigation failure yields the
search error, while banner and visibility-check failures alone leave the
search successful. -/
theorem performSearch_error_boundaries_witness :
    performSearch gotoFailPage "R9" = .error (searchFailMsg "R9") ∧
    performSearch advisoryFailPage "R9" = .ok () :=
  ⟨(performSearch_error_boundaries gotoFailPage "R9").1 "net::ERR_TIMED_OUT" rfl,
   (performSearch_error_boundaries advisoryFailPage "R9").2.2.2.1 rfl rfl rfl rfl⟩

/-! ### Constructing grammar derivations -/

lemma strBody_plainList (q : Char) (l : List Char)
    (h : ∀ c ∈ l, c ≠ q ∧ c ≠ bslash) : StrBody q l := by
  induction l with
  | nil => exact StrBody.nil
  | cons c rest ih =>
    exact StrBody.plain c rest (h c (List.mem_cons_self c rest)).1
      (h c (List.mem_cons_self c rest)).2
      (ih fun d hd => h d (List.mem_cons_of_mem c hd))

lemma bb_plainList (oc cc : Char) (l : List Char)
    (h : ∀ c ∈ l, c ≠ oc ∧ c ≠ cc ∧ c ≠ dquote ∧ c ≠ squote) :
    BalancedBody oc cc l := by
  induction l with
  | nil => exact BalancedBody.nil
  | cons c rest ih =>
    have hc := h c (List.mem_cons_self c rest)
    exact BalancedBody.plain c rest hc.1 hc.2.1 hc.2.2.1 hc.2.2.2
      (ih fun d hd => h d (List.mem_cons_of_mem c hd))

lemma bb_append (oc cc : Char) (l1 l2 : List Char)
    (h1 : BalancedBody oc cc l1) (h2 : BalancedBody oc cc l2) :
    BalancedBody oc cc (l1 ++ l2) := by
  induction h1 with
  | nil => simpa using h2
  | plain c rest hc1 hc2 hc3 hc4 hrest ih =>
    exact BalancedBody.plain c (rest ++ l2) hc1 hc2 hc3 hc4 ih
  | str q sb rest hq hsb hrest ih =>
    have hs := @BalancedBody.str oc cc q sb (rest ++ l2) hq hsb ih
    simpa [List.append_assoc] using hs
  | nest inner rest hinner hrest ihinner ihrest =>
    have hs := @BalancedBody.nest oc cc inner (rest ++ l2) hinner ihrest
    simpa [List.append_assoc] using hs

lemma bb_string (oc cc q : Char) (hq : q = dquote ∨ q = squote) (sb : List Char)
    (hsb : StrBody q sb) : BalancedBody oc cc (q :: (sb ++ [q])) := by
  have hs := @BalancedBody.str oc cc q sb [] hq hsb BalancedBody.nil
  simpa using hs

/-! ### Balanced-scan correctness -/

/-- The balanced-scan fallback on a delimiter pair with a balanced
interior: noise before (free of braces and brackets) and after is
ignored, and the full delimited block is returned. -/
lemma extractJson_balanced_core (pre body post : List Char) (oc cc : Char)
    (hocs : oc = lbrace ∨ oc = lbrack) (hco : closeOf oc = cc)
    (ho1 : oc ≠ dquote) (ho2 : oc ≠ squote)
    (hc1 : cc ≠ dquote) (hc2 : cc ≠ squote) (hne : oc ≠ cc)
    (hpre : ∀ c ∈ pre, c ≠ lbrace ∧ c ≠ lbrack)
    (hbody : BalancedBody oc cc body) :
    extractJson (pre ++ oc :: (body ++ cc :: post)) = some (oc :: (body ++ [cc])) := by
  have hocq : ¬(oc = dquote ∨ oc = squote) := by tauto
  have hccq : ¬(cc = dquote ∨ cc = squote) := by tauto
  have hsd : startDelim (pre ++ oc :: (body ++ cc :: post)) = some (pre.length, oc) :=
    startDelim_prefix pre (body ++ cc :: post) oc hocs hpre
  have hdrop : (pre ++ oc :: (body ++ cc :: post)).drop pre.length =
      oc :: (body ++ cc :: post) := List.drop_left pre _
  have hscan : scanLoop oc (closeOf oc)
      (oc :: (body ++ cc :: post)) 0 false nulChar false pre.length
      = some (pre.length + 1 + body.length) := by
    rw [hco]
    rw [scanLoop_open oc cc oc (body ++ cc :: post) 0 nulChar false pre.length hocq rfl]
    have h01 : (0 : Int) + 1 = 1 := by norm_num
    rw [h01]
    rw [scanLoop_skip_body oc cc ho1 ho2 hc1 hc2 hne body hbody (cc :: post) 1
      (by norm_num) nulChar (pre.length + 1)]
    exact scanLoop_close_ret oc cc cc post 1 nulChar false (pre.length + 1 + body.length)
      hccq (Ne.symm hne) rfl (by norm_num)
  have hslice : jsSlice (pre ++ oc :: (body ++ cc :: post)) pre.length
      (pre.length + 1 + body.length + 1) = oc :: (body ++ [cc]) := by
    unfold jsSlice
    rw [hdrop]
    have harith : pre.length + 1 + body.length + 1 - pre.length = body.length + 1 + 1 := by
      omega
    rw [harith, List.take_succ_cons]
    congr 1
    have ht := take_len_add body (cc :: post) 1
    simpa using ht
  simp [extractJson, hsd, hscan, hslice]

/-- Claim C5: for noise (free of delimiter characters) around a single
top-level balanced block whose quoted strings may contain unbalanced
braces/brackets and escapes, the fallback scanner returns the full block
unmodified. -/
theorem extractJson_balanced_fallback (pre body post : List Char) (oc cc : Char)
    (hpair : (oc = lbrace ∧ cc = rbrace) ∨ (oc = lbrack ∧ cc = rbrack))
    (hpre : ∀ c ∈ pre, c ≠ lbrace ∧ c ≠ lbrack)
    (hbody : BalancedBody oc cc body) :
    extractJson (pre ++ oc :: (body ++ cc :: post)) = some (oc :: (body ++ [cc])) := by
  rcases hpair with ⟨rfl, rfl⟩ | ⟨rfl, rfl⟩
  · exact extractJson_balanced_core pre body post lbrace rbrace (Or.inl rfl) (by decide)
      (by decide) (by decide) (by decide) (by decide) (by decide) hpre hbody
  · exact extractJson_balanced_core pre body post lbrack rbrack (Or.inr rfl) (by decide)
      (by decide) (by decide) (by decide) (by decide) (by decide) hpre hbody

/-- The interior of the spec's example object
`\x7b"note": "a \x7b b"\x7d`: a quoted key, a separator, and a quoted
string value containing an unbalanced brace. -/
def noteBody : List Char :=
  (dquote :: ("note".data ++ [dquote])) ++
    (": ".data ++ (dquote :: ("a \x7b b".data ++ [dquote])))

lemma noteBody_balanced : BalancedBody lbrace rbrace noteBody := by
  unfold noteBody
  refine bb_append lbrace rbrace _ _ ?_ (bb_append lbrace rbrace _ _ ?_ ?_)
  · exact bb_string lbrace rbrace dquote (Or.inl rfl) "note".data
      (strBody_plainList dquote "note".data (by decide))
  · exact bb_plainList lbrace rbrace ": ".data (by decide)
  · exact bb_string lbrace rbrace dquote (Or.inl rfl) "a \x7b b".data
      (strBody_plainList dquote "a \x7b b".data (by decide))

/-- Witness for claim C5: the example object with a brace inside a string
value is recovered whole from noisy surroundings. -/
theorem extractJson_balanced_fallback_witness :
    extractJson ("Scraper log output ".data ++
        lbrace :: (noteBody ++ rbrace :: " trailing text".data)) =
      some (lbrace :: (noteBody ++ [rbrace])) :=
  extractJson_balanced_fallback "Scraper log output ".data noteBody " trailing text".data
    lbrace rbrace (Or.inl ⟨rfl, rfl⟩) (by decide) noteBody_balanced

/-- An unclosed balanced interior exhausts the scan from any positive
depth. -/
lemma scanLoop_body_exhausts (oc cc : Char)
    (ho1 : oc ≠ dquote) (ho2 : oc ≠ squote)
    (hc1 : cc ≠ dquote) (hc2 : cc ≠ squote) (hne : oc ≠ cc)
    (body : List Char) (hbody : BalancedBody oc cc body)
    (d : Int) (hd : 1 ≤ d) (q : Char) (i : Nat) :
    scanLoop oc cc body d false q false i = none := by
  have hs := scanLoop_skip_body oc cc ho1 ho2 hc1 hc2 hne body hbody [] d hd q i
  simpa using hs

/-- Claim C10: when the fallback finds an opening delimiter but the scan
exhausts the buffer without the depth returning to zero, the locator
returns `none`, never a partial prefix.  The first conjunct is the general
statement; the second and third instantiate it semantically on the two
cited failure shapes, a missing closing delimiter and an unterminated
quoted string. -/
theorem extractJson_unclosed_none :
    (∀ (s : List Char) (start : Nat) (oc : Char),
      startDelim s = some (start, oc) →
      scanLoop oc (closeOf oc) (s.drop start) 0 false nulChar false start = none →
      extractJson s = none) ∧
    (∀ (pre body : List Char) (oc cc : Char),
      (oc = lbrace ∧ cc = rbrace) ∨ (oc = lbrack ∧ cc = rbrack) →
      (∀ c ∈ pre, c ≠ lbrace ∧ c ≠ lbrack) →
      BalancedBody oc cc body →
      extractJson (pre ++ oc :: body) = none) ∧
    (∀ (pre body sb : List Char) (oc cc q : Char),
      (oc = lbrace ∧ cc = rbrace) ∨ (oc = lbrack ∧ cc = rbrack) →
      q = dquote ∨ q = squote →
      (∀ c ∈ pre, c ≠ lbrace ∧ c ≠ lbrack) →
      BalancedBody oc cc body →
      StrBody q sb →
      extractJson (pre ++ oc :: (body ++ q :: sb)) = none) := by
  have hgen : ∀ (s : List Char) (start : Nat) (oc : Char),
      startDelim s = some (start, oc) →
      scanLoop oc (closeOf oc) (s.drop start) 0 false nulChar false start = none →
      extractJson s = none := by
    intro s start oc h1 h2
    simp [extractJson, h1, h2]
  refine ⟨hgen, ?_, ?_⟩
  · intro pre body oc cc hpair hpre hbody
    have hcore : ∀ (oc' cc' : Char), oc' = oc → cc' = cc →
        (oc' = lbrace ∨ oc' = lbrack) → closeOf oc' = cc' →
        oc' ≠ dquote → oc' ≠ squote → cc' ≠ dquote → cc' ≠ squote → oc' ≠ cc' →
        extractJson (pre ++ oc :: body) = none := by
      intro oc' cc' hoeq hceq hocs hco ho1 ho2 hc1 hc2 hne
      subst hoeq
      subst hceq
      have hsd : startDelim (pre ++ oc' :: body) = some (pre.length, oc') :=
        startDelim_prefix pre body oc' hocs hpre
      have hdrop : (pre ++ oc' :: body).drop pre.length = oc' :: body :=
        List.drop_left pre _
      apply hgen (pre ++ oc' :: body) pre.length oc' hsd
      rw [hdrop, hco]
      rw [scanLoop_open oc' cc' oc' body 0 nulChar false pre.length (by tauto) rfl]
      have h01 : (0 : Int) + 1 = 1 := by norm_num
      rw [h01]
      exact scanLoop_body_exhausts oc' cc' ho1 ho2 hc1 hc2 hne body hbody 1
        (by norm_num) nulChar (pre.length + 1)
    rcases hpair with ⟨rfl, rfl⟩ | ⟨rfl, rfl⟩
    · exact hcore lbrace rbrace rfl rfl (Or.inl rfl) (by decide) (by decide) (by decide)
        (by decide) (by decide) (by decide)
    · exact hcore lbrack rbrack rfl rfl (Or.inr rfl) (by decide) (by decide) (by decide)
        (by decide) (by decide) (by decide)
  · intro pre body sb oc cc q hpair hq hpre hbody hsb
    have hqb : q ≠ bslash := by
      rcases hq with rfl | rfl <;> decide
    have hcore : ∀ (oc' cc' : Char), oc' = oc → cc' = cc →
        (oc' = lbrace ∨ oc' = lbrack) → closeOf oc' = cc' →
        oc' ≠ dquote → oc' ≠ squote → cc' ≠ dquote → cc' ≠ squote → oc' ≠ cc' →
        extractJson (pre ++ oc :: (body ++ q :: sb)) = none := by
      intro oc' cc' hoeq hceq hocs hco ho1 ho2 hc1 hc2 hne
      subst hoeq
      subst hceq
      have hsd : startDelim (pre ++ oc' :: (body ++ q :: sb)) = some (pre.length, oc') :=
        startDelim_prefix pre (body ++ q :: sb) oc' hocs hpre
      have hdrop : (pre ++ oc' :: (body ++ q :: sb)).drop pre.length =
          oc' :: (body ++ q :: sb) := List.drop_left pre _
      apply hgen (pre ++ oc' :: (body ++ q :: sb)) pre.length oc' hsd
      rw [hdrop, hco]
      rw [scanLoop_open oc' cc' oc' (body ++ q :: sb) 0 nulChar false pre.length
        (by tauto) rfl]
      have h01 : (0 : Int) + 1 = 1 := by norm_num
      rw [h01]
      rw [scanLoop_skip_body oc' cc' ho1 ho2 hc1 hc2 hne body hbody (q :: sb) 1
        (by norm_num) nulChar (pre.length + 1)]
      rw [scanLoop_enterStr oc' cc' q sb 1 nulChar false (pre.length + 1 + body.length) hq]
      exact scanLoop_unterminated_str oc' cc' q sb hsb 1 (pre.length + 1 + body.length + 1)
    rcases hpair with ⟨rfl, rfl⟩ | ⟨rfl, rfl⟩
    · exact hcore lbrace rbrace rfl rfl (Or.inl rfl) (by decide) (by decide) (by decide)
        (by decide) (by decide) (by decide)
    · exact hcore lbrack rbrack rfl rfl (Or.inr rfl) (by decide) (by decide) (by decide)
        (by decide) (by decide) (by decide)

/-- A balanced interior whose outer brace is never closed:
`"a": 1` after an opening brace. -/
def unclosedBody : List Char :=
  (dquote :: ("a".data ++ [dquote])) ++ ": 1".data

lemma unclosedBody_balanced : BalancedBody lbrace rbrace unclosedBody := by
  unfold unclosedBody
  refine bb_append lbrace rbrace _ _ ?_ ?_
  · exact bb_string lbrace rbrace dquote (Or.inl rfl) "a".data
      (strBody_plainList dquote "a".data (by decide))
  · exact bb_plainList lbrace rbrace ": 1".data (by decide)

/-- Witness for claim C10: a general unclosed scan, a missing closing
brace, and an unterminated quoted string all yield `none`. -/
theorem extractJson_unclosed_none_witness :
    extractJson "x\x7babc".data = none ∧
    extractJson ("log: ".data ++ lbrace :: unclosedBody) = none ∧
    extractJson ("log: ".data ++
      lbrace :: (unclosedBody ++ dquote :: " never closed \x7d".data)) = none :=
  ⟨extractJson_unclosed_none.1 "x\x7babc".data 1 lbrace (by decide) (by decide),
   extractJson_unclosed_none.2.1 "log: ".data unclosedBody lbrace rbrace
     (Or.inl ⟨rfl, rfl⟩) (by decide) unclosedBody_balanced,
   extractJson_unclosed_none.2.2 "log: ".data unclosedBody " never closed \x7d".data
     lbrace rbrace dquote (Or.inl ⟨rfl, rfl⟩) (Or.inl rfl) (by decide)
     unclosedBody_balanced
     (strBody_plainList dquote " never closed \x7d".data (by decide))⟩
